import Mathlib

/-!
# Verification of the system-monitor collection core

Shallow embedding of the Go sources of `system-monitoring-system`:
* `internal/models/metrics.go` — snapshot model and `CalculatePercentage`,
* `internal/collector/collector.go` — `Collector.Collect` and
  `calculateNetworkRates`,
* `internal/stats/mock.go` — `MockStatsProvider`,
* `internal/stats/linux.go` — construction of `MemoryStats` / `DiskStats` /
  `NetworkStats` values from `/proc` and `statfs` data,
* `internal/config/config.go` — `ValidateConfig`.

Go `uint64` values are modelled as `Nat` together with explicit wrap-around
arithmetic modulo `2^64` where Go arithmetic can wrap; `float64` quantities
(rates, percentages, thresholds) are modelled as `ℚ`, which agrees with the
`float64` computation on the sign/zeroness questions the theorems ask and is
exact where the spec demands exactness.  Wall-clock instants are modelled as
rationals (seconds); the single instant `now` stands for both
`metrics.Timestamp` and the clock reading used by `time.Since` in the same
cycle.
-/

namespace SysMon

/-- `2^64`, the modulus of Go's `uint64` arithmetic. -/
def U64 : Nat := 18446744073709551616

/-- Go `uint64` subtraction `a - b`, which wraps around modulo `2^64`. -/
def u64sub (a b : Nat) : Nat := (a + (U64 - b % U64)) % U64

/-- Go `uint64` addition `a + b`, which wraps around modulo `2^64`. -/
def u64add (a b : Nat) : Nat := (a + b) % U64

/-- `models.CPUStats`. -/
structure CPUStats where
  Overall : ℚ
  PerCore : List ℚ
deriving DecidableEq, Inhabited, Repr

/-- `models.MemoryStats` (byte counts are `uint64` in Go). -/
structure MemoryStats where
  Total : Nat
  Used : Nat
  Available : Nat
  Percent : ℚ
deriving DecidableEq, Inhabited, Repr

/-- `models.DiskStats`. -/
structure DiskStats where
  Mountpoint : String
  Total : Nat
  Used : Nat
  Available : Nat
  Percent : ℚ
deriving DecidableEq, Inhabited, Repr

/-- `models.NetworkStats`. -/
structure NetworkStats where
  Interface : String
  BytesSent : Nat
  BytesRecv : Nat
  SendRate : ℚ
  RecvRate : ℚ
deriving DecidableEq, Inhabited, Repr

/-- `models.Metrics`, the per-cycle snapshot.  The Go zero values of the
subsystem fields are a zeroed struct (CPU, memory) or a nil slice
(disk, network). -/
structure Metrics where
  Timestamp : ℚ
  CPU : CPUStats
  Memory : MemoryStats
  Disk : List DiskStats
  Network : List NetworkStats
deriving DecidableEq, Inhabited, Repr

/-- `models.CalculatePercentage`: `if total == 0 { return 0.0 };
return (float64(used) / float64(total)) * 100.0`. -/
def CalculatePercentage (used total : Nat) : ℚ :=
  if total = 0 then 0 else ((used : ℚ) / (total : ℚ)) * 100

/-- Lookup in the Go map built by `calculateNetworkRates`
(`prevMap[prev.Interface] = prev` in slice order, so a later entry with the
same interface name overwrites an earlier one). -/
def prevMapLookup (l : List NetworkStats) (name : String) : Option NetworkStats :=
  l.foldl (fun acc p => if p.Interface = name then some p else acc) none

/-- Body of the per-interface loop of `calculateNetworkRates`
(collector.go:126-144): copy the current sample, and when the interface
exists in the previous map set `SendRate`/`RecvRate` to the wrapped `uint64`
byte delta divided by the elapsed seconds, clamping a negative rate to 0. -/
def rateEntry (prev : List NetworkStats) (timeDelta : ℚ)
    (curr : NetworkStats) : NetworkStats :=
  match prevMapLookup prev curr.Interface with
  | none => curr
  | some p =>
    let bytesSentDelta : ℚ := (u64sub curr.BytesSent p.BytesSent : Nat)
    let bytesRecvDelta : ℚ := (u64sub curr.BytesRecv p.BytesRecv : Nat)
    let sendRate := bytesSentDelta / timeDelta
    let recvRate := bytesRecvDelta / timeDelta
    { curr with
        SendRate := if sendRate < 0 then 0 else sendRate
        RecvRate := if recvRate < 0 then 0 else recvRate }

/-- `Collector.calculateNetworkRates` (collector.go:108-148).  `prevNet` is
the collector's previous network sample set (`none` = Go `nil`), `timeDelta`
the value of `time.Since(c.prevTime).Seconds()`. -/
def calculateNetworkRates (prevNet : Option (List NetworkStats))
    (timeDelta : ℚ) (current : List NetworkStats) : List NetworkStats :=
  match prevNet with
  | none => current
  | some prev =>
    if prev.length = 0 then current
    else if timeDelta = 0 then current
    else current.map (rateEntry prev timeDelta)

/-- The collector's carried-forward rate state (collector.go:12-16):
`prevNet []models.NetworkStats` (`none` = Go `nil`) and `prevTime`. -/
structure CollectorState where
  prevNet : Option (List NetworkStats)
  prevTime : ℚ
deriving DecidableEq, Inhabited, Repr

/-- `stats.MockStatsProvider` (mock.go): configured values plus one
independently settable failure flag per subsystem (a Go `error` field being
non-nil is modelled as the flag being `true`). -/
structure MockStatsProvider where
  CPUStats : CPUStats
  MemStats : MemoryStats
  DiskStats : List DiskStats
  NetStats : List NetworkStats
  CPUError : Bool
  MemError : Bool
  DiskError : Bool
  NetError : Bool
deriving DecidableEq, Inhabited, Repr

/-- `MockStatsProvider.GetCPUStats`. -/
def getCPUStats (m : MockStatsProvider) : Except String CPUStats :=
  if m.CPUError then .error "cpu error" else .ok m.CPUStats

/-- `MockStatsProvider.GetMemoryStats`. -/
def getMemoryStats (m : MockStatsProvider) : Except String MemoryStats :=
  if m.MemError then .error "mem error" else .ok m.MemStats

/-- `MockStatsProvider.GetDiskStats`. -/
def getDiskStats (m : MockStatsProvider) : Except String (List DiskStats) :=
  if m.DiskError then .error "disk error" else .ok m.DiskStats

/-- `MockStatsProvider.GetNetworkStats`. -/
def getNetworkStats (m : MockStatsProvider) : Except String (List NetworkStats) :=
  if m.NetError then .error "net error" else .ok m.NetStats

/-- `stats.NewMockStatsProvider` (mock.go:19-50): the default mock data.
Note the default network sample carries non-zero `SendRate`/`RecvRate`. -/
def NewMockStatsProvider : MockStatsProvider where
  CPUStats := ⟨255/10, [20, 30, 25, 28]⟩
  MemStats := ⟨17179869184, 8589934592, 8589934592, 50⟩
  DiskStats := [⟨"/", 536870912000, 322122547200, 214748364800, 60⟩]
  NetStats := [⟨"eth0", 104857600, 209715200, 102400, 204800⟩]
  CPUError := false
  MemError := false
  DiskError := false
  NetError := false

/-- `Collector.Collect` (collector.go:29-69) against a `MockStatsProvider`.
The returned triple is (snapshot, error, new collector state); the Go method
unconditionally returns `nil` for the error (partial failures are only
logged), which the definition mirrors by always producing `none`.  Each
failed subsystem leaves its snapshot field at the Go zero value.  On network
success the rates are computed (when `prevNet != nil`) and the rate state is
overwritten with this cycle's result and timestamp; on network failure the
rate state is untouched. -/
def collect (c : CollectorState) (m : MockStatsProvider) (now : ℚ) :
    (Metrics × Option String) × CollectorState :=
  let cpu := match getCPUStats m with
    | .error _ => (⟨0, []⟩ : CPUStats)
    | .ok v => v
  let mem := match getMemoryStats m with
    | .error _ => (⟨0, 0, 0, 0⟩ : MemoryStats)
    | .ok v => v
  let disk := match getDiskStats m with
    | .error _ => ([] : List DiskStats)
    | .ok v => v
  match getNetworkStats m with
  | .error _ => ((⟨now, cpu, mem, disk, []⟩, none), c)
  | .ok net =>
    let net2 := match c.prevNet with
      | none => net
      | some _ => calculateNetworkRates c.prevNet (now - c.prevTime) net
    ((⟨now, cpu, mem, disk, net2⟩, none), ⟨some net2, now⟩)

/-! ## Linux stats source (`internal/stats/linux.go`)

The Linux provider parses `/proc` files; the embedding models it from the
point where the numeric fields of each record have been extracted, keeping
every skip condition, the dedup set and the `uint64` arithmetic of the
source. -/

/-- `GetMemoryStats` (linux.go:104-156), given the parsed byte values of the
`MemTotal`, `MemFree`, `MemAvailable`, `Buffers` and `Cached` lines
(a missing line leaves its value at 0, exactly as in the Go code).
`available` falls back to `memFree + buffers + cached` when `MemAvailable`
is absent/zero, and `used = memTotal - available` in `uint64` arithmetic. -/
def mkMemoryStats (memTotal memFree memAvailable buffers cached : Nat) :
    MemoryStats :=
  let available := if memAvailable = 0
    then (memFree + buffers + cached) % U64
    else memAvailable
  let used := u64sub memTotal available
  { Total := memTotal
    Used := used
    Available := available
    Percent := CalculatePercentage used memTotal }

/-- The fields of `syscall.Statfs_t` used by `GetDiskStats`
(`Bsize` is an `int64` in Go, non-negative on every real filesystem). -/
structure StatfsT where
  Blocks : Nat
  Bfree : Nat
  Bavail : Nat
  Bsize : Nat
deriving DecidableEq, Inhabited, Repr

/-- The `DiskStats` value built from one successful `Statfs` call
(linux.go:199-209): `total = Blocks*Bsize`, `available = Bavail*Bsize`,
`used = total - Bfree*Bsize`, all in `uint64` arithmetic. -/
def mkDiskStats (mountpoint : String) (s : StatfsT) : DiskStats :=
  let total := (s.Blocks * s.Bsize) % U64
  let available := (s.Bavail * s.Bsize) % U64
  let used := u64sub total ((s.Bfree * s.Bsize) % U64)
  { Mountpoint := mountpoint
    Total := total
    Used := used
    Available := available
    Percent := CalculatePercentage used total }

/-- One well-formed `/proc/mounts` line (at least three fields), paired with
the outcome of `syscall.Statfs` on its mountpoint (`none` = the call failed
and the entry is skipped). -/
structure MountRow where
  mountpoint : String
  fstype : String
  statfs : Option StatfsT
deriving DecidableEq, Inhabited, Repr

/-- The special-filesystem skip condition of `GetDiskStats`
(linux.go:181-185). -/
def isSpecialFs (fstype : String) : Bool :=
  fstype.startsWith "tmpfs" || fstype.startsWith "devtmpfs" ||
  fstype.startsWith "proc" || fstype.startsWith "sysfs" ||
  fstype.startsWith "cgroup" || fstype.startsWith "devpts"

/-- The scan loop of `GetDiskStats` (linux.go:171-210) with its `seen` set:
skip special filesystems, skip already-seen mountpoints (marking `seen`
before the `Statfs` call), skip entries whose `Statfs` fails. -/
def diskScan : List MountRow → List String → List DiskStats
  | [], _ => []
  | r :: rest, seen =>
    if isSpecialFs r.fstype then diskScan rest seen
    else if r.mountpoint ∈ seen then diskScan rest seen
    else match r.statfs with
      | none => diskScan rest (r.mountpoint :: seen)
      | some s => mkDiskStats r.mountpoint s :: diskScan rest (r.mountpoint :: seen)

/-- `GetDiskStats` (linux.go:159-217) on the parsed mount table of one
successful query. -/
def linuxGetDiskStats (rows : List MountRow) : List DiskStats :=
  diskScan rows []

/-- One well-formed `/proc/net/dev` data line: interface name and the parsed
first (bytes received) and ninth (bytes sent) counter fields. -/
structure NetRow where
  iface : String
  bytesRecv : Nat
  bytesSent : Nat
deriving DecidableEq, Inhabited, Repr

/-- `GetNetworkStats` (linux.go:220-266) on the parsed interface lines of one
successful query: the loopback interface `lo` is skipped and every sample is
emitted with zero rates (rates are calculated by the collector). -/
def linuxGetNetworkStats : List NetRow → List NetworkStats
  | [] => []
  | r :: rest =>
    if r.iface = "lo" then linuxGetNetworkStats rest
    else ⟨r.iface, r.bytesSent, r.bytesRecv, 0, 0⟩ :: linuxGetNetworkStats rest

/-! ## Configuration (`internal/config/config.go`) -/

/-- `config.Thresholds` (`float64` thresholds, modelled as `ℚ`). -/
structure Thresholds where
  CPU : ℚ
  Memory : ℚ
  Disk : ℚ
deriving DecidableEq, Inhabited, Repr

/-- `config.Config`.  `Interval` is a Go `time.Duration`, i.e. a signed
64-bit count of nanoseconds, modelled as `Int`. -/
structure Config where
  Interval : Int
  JSONMode : Bool
  LogFile : String
  ConfigFile : String
  Thresholds : Thresholds
deriving DecidableEq, Inhabited, Repr

/-- `1 * time.Hour` in nanoseconds. -/
def hourNs : Int := 3600000000000

/-- `config.validateThreshold` (config.go:128-133): rejects a value outside
`[0, 100]`. -/
def validateThreshold (name : String) (value : ℚ) : Option String :=
  if value < 0 || value > 100
  then some (name ++ " threshold must be between 0 and 100")
  else none

/-- `config.ValidateConfig` (config.go:104-125): `some err` models a non-nil
error return, `none` models `nil`. -/
def ValidateConfig (config : Config) : Option String :=
  if config.Interval ≤ 0 then some "interval must be positive"
  else if config.Interval > hourNs then some "interval too large (max 1 hour)"
  else match validateThreshold "CPU" config.Thresholds.CPU with
    | some err => some err
    | none => match validateThreshold "Memory" config.Thresholds.Memory with
      | some err => some err
      | none => match validateThreshold "Disk" config.Thresholds.Disk with
        | some err => some err
        | none => none

/-- The rate-free projection of a network sample: identity and the raw
cumulative counters, everything `calculateNetworkRates` is not supposed to
touch. -/
def stripRates (s : NetworkStats) : String × Nat × Nat :=
  (s.Interface, s.BytesSent, s.BytesRecv)

/-! ## Helper lemmas -/

theorem u64sub_of_le {a b : Nat} (hb : b ≤ a) (ha : a < U64) :
    u64sub a b = a - b := by
  unfold u64sub U64 at *
  omega

theorem u64add_u64sub {t a : Nat} (ht : t < U64) :
    u64add (u64sub t a) a = t := by
  unfold u64add u64sub U64 at *
  omega

theorem getD_map {α β : Type} (f : α → β) (l : List α) (i : Nat)
    (h : i < l.length) (db : β) (da : α) :
    (l.map f).getD i db = f (l.getD i da) := by
  induction l generalizing i with
  | nil => simp at h
  | cons a t ih =>
    cases i with
    | zero => rfl
    | succ n => simpa [List.getD] using ih n (by simpa using h)

theorem stripRates_rateEntry (prev : List NetworkStats) (timeDelta : ℚ)
    (s : NetworkStats) : stripRates (rateEntry prev timeDelta s) = stripRates s := by
  unfold rateEntry
  cases prevMapLookup prev s.Interface <;> rfl

theorem validateThreshold_none_iff (name : String) (value : ℚ) :
    validateThreshold name value = none ↔ 0 ≤ value ∧ value ≤ 100 := by
  unfold validateThreshold
  split_ifs with h
  · simp only [reduceCtorEq, false_iff]
    intro hc
    rcases Bool.or_eq_true_iff.mp h with h' | h' <;>
      [exact absurd hc.1 (by simpa using h'); exact absurd hc.2 (by simpa using h')]
  · simp only [Bool.or_eq_true_iff, not_or] at h
    constructor
    · intro _
      exact ⟨by simpa using h.1, by simpa using h.2⟩
    · intro _
      rfl

/-! ## Claim theorems -/

/-- **C7** — `CalculatePercentage`: a zero total yields exactly 0 (no division
by zero); for `0 < total` and `used ≤ total` the result is `used/total*100`
and lies in `[0, 100]`. -/
theorem percentage_law (used total : Nat) :
    (total = 0 → CalculatePercentage used total = 0) ∧
    (0 < total → used ≤ total →
      CalculatePercentage used total = (used : ℚ) / (total : ℚ) * 100 ∧
      0 ≤ CalculatePercentage used total ∧
      CalculatePercentage used total ≤ 100) := by
  constructor
  · intro h
    simp [CalculatePercentage, h]
  · intro hpos hle
    have htz : total ≠ 0 := Nat.pos_iff_ne_zero.mp hpos
    have htq : (0 : ℚ) < (total : ℚ) := by exact_mod_cast hpos
    have hval : CalculatePercentage used total = (used : ℚ) / (total : ℚ) * 100 := by
      simp [CalculatePercentage, htz]
    refine ⟨hval, ?_, ?_⟩
    · rw [hval]
      positivity
    · rw [hval]
      have h1 : (used : ℚ) / (total : ℚ) ≤ 1 := by
        rw [div_le_one htq]
        exact_mod_cast hle
      nlinarith

/-- Witness for `percentage_law` at `used = 8`, `total = 16`. -/
theorem percentage_law_witness :
    CalculatePercentage 8 16 = (8 : ℚ) / 16 * 100 ∧
    0 ≤ CalculatePercentage 8 16 ∧ CalculatePercentage 8 16 ≤ 100 :=
  (percentage_law 8 16).2 (by norm_num) (by norm_num)

/-- **C9** — `ValidateConfig` returns `nil` exactly when the interval is in
`(0, 1h]` and every threshold is in `[0, 100]`; otherwise it returns an
error. -/
theorem validate_config_iff (c : Config) :
    ValidateConfig c = none ↔
      (0 < c.Interval ∧ c.Interval ≤ hourNs ∧
       0 ≤ c.Thresholds.CPU ∧ c.Thresholds.CPU ≤ 100 ∧
       0 ≤ c.Thresholds.Memory ∧ c.Thresholds.Memory ≤ 100 ∧
       0 ≤ c.Thresholds.Disk ∧ c.Thresholds.Disk ≤ 100) := by
  unfold ValidateConfig
  split_ifs with h1 h2
  · simp only [reduceCtorEq, false_iff]
    rintro ⟨hi, -⟩
    omega
  · simp only [reduceCtorEq, false_iff]
    rintro ⟨-, hi, -⟩
    omega
  · cases hC : validateThreshold "CPU" c.Thresholds.CPU with
    | some e =>
      simp only [reduceCtorEq, false_iff]
      rintro ⟨-, -, hc1, hc2, -⟩
      have := (validateThreshold_none_iff "CPU" c.Thresholds.CPU).mpr ⟨hc1, hc2⟩
      rw [hC] at this
      exact absurd this (by simp)
    | none =>
      cases hM : validateThreshold "Memory" c.Thresholds.Memory with
      | some e =>
        simp only [reduceCtorEq, false_iff]
        rintro ⟨-, -, -, -, hm1, hm2, -⟩
        have := (validateThreshold_none_iff "Memory" c.Thresholds.Memory).mpr ⟨hm1, hm2⟩
        rw [hM] at this
        exact absurd this (by simp)
      | none =>
        cases hD : validateThreshold "Disk" c.Thresholds.Disk with
        | some e =>
          simp only [reduceCtorEq, false_iff]
          rintro ⟨-, -, -, -, -, -, hd1, hd2⟩
          have := (validateThreshold_none_iff "Disk" c.Thresholds.Disk).mpr ⟨hd1, hd2⟩
          rw [hD] at this
          exact absurd this (by simp)
        | none =>
          simp only [true_iff]
          have hc := (validateThreshold_none_iff "CPU" c.Thresholds.CPU).mp hC
          have hm := (validateThreshold_none_iff "Memory" c.Thresholds.Memory).mp hM
          have hd := (validateThreshold_none_iff "Disk" c.Thresholds.Disk).mp hD
          exact ⟨by omega, by omega, hc.1, hc.2, hm.1, hm.2, hd.1, hd.2⟩

/-- The default configuration of `NewDefaultConfig` (config.go:22-33):
interval 1s, thresholds 80/85/90. -/
def defaultConfig : Config :=
  ⟨1000000000, false, "", "", ⟨80, 85, 90⟩⟩

/-- Witness for `validate_config_iff`: the default configuration
validates. -/
theorem validate_config_iff_witness : ValidateConfig defaultConfig = none :=
  (validate_config_iff defaultConfig).mpr
    (by norm_num [defaultConfig, hourNs])

/-- **C10** — `calculateNetworkRates` preserves length and order of the
current sample list and the `Interface`/`BytesSent`/`BytesRecv` fields of
every entry; only the rates may change. -/
theorem rates_only_frame (prevNet : Option (List NetworkStats))
    (timeDelta : ℚ) (current : List NetworkStats) :
    (calculateNetworkRates prevNet timeDelta current).length = current.length ∧
    (calculateNetworkRates prevNet timeDelta current).map stripRates
      = current.map stripRates := by
  cases prevNet with
  | none => exact ⟨rfl, rfl⟩
  | some prev =>
    simp only [calculateNetworkRates]
    split_ifs with h1 h2
    · exact ⟨rfl, rfl⟩
    · exact ⟨rfl, rfl⟩
    · refine ⟨List.length_map _ _, ?_⟩
      rw [List.map_map]
      exact List.map_congr_left fun s _ => stripRates_rateEntry prev timeDelta s

/-- **C1** — evaluation of `calculateNetworkRates` at a counter regression
(previous `eth0` counters 100, current counters 50, `Δt = 1s`): the Go
`uint64` subtraction wraps to `2^64 - 50`, so the computed rates are the
huge positive value `18446744073709551566`, not the 0 the spec requires;
the `rate < 0` clamp in collector.go:138-143 can never fire. -/
theorem counter_regression_produces_wrapped_rate :
    calculateNetworkRates (some [⟨"eth0", 100, 100, 0, 0⟩]) 1
        [⟨"eth0", 50, 50, 0, 0⟩]
      = [⟨"eth0", 50, 50, 18446744073709551566, 18446744073709551566⟩] ∧
    (18446744073709551566 : ℚ) ≠ 0 := by
  constructor
  · norm_num [calculateNetworkRates, rateEntry, prevMapLookup, u64sub, U64]
  · norm_num

/-- **C5** — the rate law of `calculateNetworkRates`: for a sample at
position `i` of the current list whose interface is found in the previous
map with counters `b1 ≤ b2` (no regression, counters below `2^64`):
with `Δt > 0` the computed rates are exactly `(b2 - b1) / Δt`, and with
`Δt = 0` the computation is skipped and the sample is returned unchanged
(so rates stay at the 0 the stats sources report). -/
theorem rate_law (prev current : List NetworkStats) (timeDelta : ℚ) (i : Nat)
    (hi : i < current.length) (p : NetworkStats) (hprev : prev ≠ [])
    (hp : prevMapLookup prev (current.getD i default).Interface = some p)
    (hs2 : (current.getD i default).BytesSent < U64)
    (hr2 : (current.getD i default).BytesRecv < U64)
    (hms : p.BytesSent ≤ (current.getD i default).BytesSent)
    (hmr : p.BytesRecv ≤ (current.getD i default).BytesRecv) :
    (0 < timeDelta →
      ((calculateNetworkRates (some prev) timeDelta current).getD i default).SendRate
        = (((current.getD i default).BytesSent - p.BytesSent : Nat) : ℚ) / timeDelta ∧
      ((calculateNetworkRates (some prev) timeDelta current).getD i default).RecvRate
        = (((current.getD i default).BytesRecv - p.BytesRecv : Nat) : ℚ) / timeDelta) ∧
    (timeDelta = 0 →
      (calculateNetworkRates (some prev) timeDelta current).getD i default
        = current.getD i default) := by
  have hlen : ¬ prev.length = 0 := by
    simpa [List.length_eq_zero] using hprev
  constructor
  · intro hdt
    have hne : ¬ timeDelta = 0 := ne_of_gt hdt
    have hred : calculateNetworkRates (some prev) timeDelta current
        = current.map (rateEntry prev timeDelta) := by
      simp only [calculateNetworkRates, hlen, hne, if_false]
    rw [hred, getD_map (rateEntry prev timeDelta) current i hi default default]
    set curr := current.getD i default with hcurr
    have hsend : u64sub curr.BytesSent p.BytesSent = curr.BytesSent - p.BytesSent :=
      u64sub_of_le hms hs2
    have hrecv : u64sub curr.BytesRecv p.BytesRecv = curr.BytesRecv - p.BytesRecv :=
      u64sub_of_le hmr hr2
    have hsnn : ¬ ((curr.BytesSent - p.BytesSent : Nat) : ℚ) / timeDelta < 0 := by
      push_neg
      positivity
    have hrnn : ¬ ((curr.BytesRecv - p.BytesRecv : Nat) : ℚ) / timeDelta < 0 := by
      push_neg
      positivity
    unfold rateEntry
    rw [hp]
    simp only [hsend, hrecv, if_neg hsnn, if_neg hrnn]
    exact ⟨trivial, trivial⟩
  · intro hdt
    simp only [calculateNetworkRates, hlen, hdt, if_false, if_true, if_pos rfl]

/-- Witness for `rate_law`: `eth0` going from 1,000,000 to 1,100,000 sent
bytes in 1 second yields a send rate of exactly 100000. -/
theorem rate_law_witness :
    ((calculateNetworkRates (some [⟨"eth0", 1000000, 2000000, 0, 0⟩]) 1
        [⟨"eth0", 1100000, 2200000, 0, 0⟩]).getD 0 default).SendRate = 100000 := by
  have h := (rate_law [⟨"eth0", 1000000, 2000000, 0, 0⟩]
      [⟨"eth0", 1100000, 2200000, 0, 0⟩] 1 0 (by norm_num)
      ⟨"eth0", 1000000, 2000000, 0, 0⟩ (by norm_num)
      (by norm_num [prevMapLookup, List.getD])
      (by norm_num [List.getD, U64]) (by norm_num [List.getD, U64])
      (by norm_num [List.getD]) (by norm_num [List.getD])).1 (by norm_num)
  rw [h.1]
  norm_num [List.getD]

/-- **C2** (counterexample) — a `DiskStats` built from a `Statfs` result with
root-reserved blocks (`Bfree = 20 > Bavail = 10`, `Blocks = 100`,
`Bsize = 4096`) violates `total == used + available`: `409600 ≠ 327680 +
40960`. -/
theorem disk_total_ne_used_add_available :
    (mkDiskStats "/" ⟨100, 20, 10, 4096⟩).Total
      ≠ (mkDiskStats "/" ⟨100, 20, 10, 4096⟩).Used
        + (mkDiskStats "/" ⟨100, 20, 10, 4096⟩).Available := by
  decide

/-- **C2** (amended) — construction-time reconciliation as the code actually
provides it: every `MemoryStats` from `GetMemoryStats` satisfies
`used + available == total` in `uint64` arithmetic, while a `DiskStats` from
`GetDiskStats` satisfies the weaker `total == used + available + reserved`
with `reserved = (Bfree - Bavail) * Bsize` the root-reserved bytes (so
equality holds only when `Bfree = Bavail`). -/
theorem mem_disk_reconciliation (memTotal memFree memAvailable buffers cached : Nat)
    (hmt : memTotal < U64) (mp : String) (s : StatfsT)
    (h1 : s.Bavail ≤ s.Bfree) (h2 : s.Bfree ≤ s.Blocks)
    (h3 : s.Blocks * s.Bsize < U64) :
    u64add (mkMemoryStats memTotal memFree memAvailable buffers cached).Used
        (mkMemoryStats memTotal memFree memAvailable buffers cached).Available
      = (mkMemoryStats memTotal memFree memAvailable buffers cached).Total ∧
    (mkDiskStats mp s).Used + (mkDiskStats mp s).Available
        + (s.Bfree - s.Bavail) * s.Bsize = (mkDiskStats mp s).Total := by
  constructor
  · exact u64add_u64sub hmt
  · have hfree : s.Bfree * s.Bsize ≤ s.Blocks * s.Bsize :=
      Nat.mul_le_mul_right _ h2
    have havail : s.Bavail * s.Bsize ≤ s.Bfree * s.Bsize :=
      Nat.mul_le_mul_right _ h1
    have hsub : (s.Bfree - s.Bavail) * s.Bsize
        = s.Bfree * s.Bsize - s.Bavail * s.Bsize := Nat.sub_mul _ _ _
    simp only [mkDiskStats]
    rw [Nat.mod_eq_of_lt h3, Nat.mod_eq_of_lt (lt_of_le_of_lt hfree h3),
      Nat.mod_eq_of_lt (lt_of_le_of_lt (le_trans havail hfree) h3),
      u64sub_of_le hfree h3, hsub]
    omega

/-- Witness for `mem_disk_reconciliation` at concrete values
(16 GiB memory split 8/8; the counterexample's `Statfs` numbers). -/
theorem mem_disk_reconciliation_witness :
    u64add (mkMemoryStats 17179869184 0 8589934592 0 0).Used
        (mkMemoryStats 17179869184 0 8589934592 0 0).Available
      = (mkMemoryStats 17179869184 0 8589934592 0 0).Total ∧
    (mkDiskStats "/" ⟨100, 20, 10, 4096⟩).Used
        + (mkDiskStats "/" ⟨100, 20, 10, 4096⟩).Available + (20 - 10) * 4096
      = (mkDiskStats "/" ⟨100, 20, 10, 4096⟩).Total :=
  mem_disk_reconciliation 17179869184 0 8589934592 0 0 (by norm_num [U64])
    "/" ⟨100, 20, 10, 4096⟩ (by norm_num) (by norm_num) (by norm_num [U64])

/-- A mock provider with every subsystem forced to fail. -/
def allFailMock : MockStatsProvider :=
  ⟨⟨1, [2]⟩, ⟨1, 2, 3, 4⟩, [⟨"/", 1, 2, 3, 4⟩], [⟨"eth0", 1, 2, 3, 4⟩],
    true, true, true, true⟩

/-- A fully successful mock provider whose network samples report zero
rates, as the platform-native sources do. -/
def zeroRateMock : MockStatsProvider :=
  ⟨⟨0, []⟩, ⟨0, 0, 0, 0⟩, [], [⟨"eth0", 5, 5, 0, 0⟩],
    false, false, false, false⟩

/-- **C3** — partial-failure contract of `Collect` on a fresh collector: the
error return is always `nil`; every subsystem whose query fails contributes
its zero value to the snapshot, and every subsystem whose query succeeds
contributes the source's configured value. -/
theorem partial_failure_resilience (m : MockStatsProvider) (t0 now : ℚ)
    (hne : m.CPUError = true ∨ m.MemError = true ∨ m.DiskError = true ∨
      m.NetError = true) :
    (collect ⟨none, t0⟩ m now).1.2 = none ∧
    (m.CPUError = true → (collect ⟨none, t0⟩ m now).1.1.CPU = ⟨0, []⟩) ∧
    (m.CPUError = false → (collect ⟨none, t0⟩ m now).1.1.CPU = m.CPUStats) ∧
    (m.MemError = true → (collect ⟨none, t0⟩ m now).1.1.Memory = ⟨0, 0, 0, 0⟩) ∧
    (m.MemError = false → (collect ⟨none, t0⟩ m now).1.1.Memory = m.MemStats) ∧
    (m.DiskError = true → (collect ⟨none, t0⟩ m now).1.1.Disk = []) ∧
    (m.DiskError = false → (collect ⟨none, t0⟩ m now).1.1.Disk = m.DiskStats) ∧
    (m.NetError = true → (collect ⟨none, t0⟩ m now).1.1.Network = []) ∧
    (m.NetError = false → (collect ⟨none, t0⟩ m now).1.1.Network = m.NetStats) := by
  cases hc : m.CPUError <;> cases hm : m.MemError <;> cases hd : m.DiskError <;>
    cases hn : m.NetError <;>
    simp [collect, getCPUStats, getMemoryStats, getDiskStats, getNetworkStats,
      hc, hm, hd, hn]

/-- Witness for `partial_failure_resilience`: all four subsystems failing
still yields a nil error and a fully zeroed snapshot. -/
theorem partial_failure_resilience_witness :
    (collect ⟨none, 0⟩ allFailMock 1).1.2 = none ∧
    (collect ⟨none, 0⟩ allFailMock 1).1.1.CPU = ⟨0, []⟩ ∧
    (collect ⟨none, 0⟩ allFailMock 1).1.1.Network = [] := by
  have h := partial_failure_resilience allFailMock 0 1 (Or.inl rfl)
  exact ⟨h.1, h.2.1 rfl, h.2.2.2.2.2.2.2.1 rfl⟩

/-- **C4** (counterexample) — on a freshly constructed collector, the first
successful network collection passes the source's samples through
unchanged: with the default mock of `NewMockStatsProvider` (whose `eth0`
sample carries `SendRate = 102400`) the first snapshot's send rate is
102400, not 0. -/
theorem first_collect_mock_rates_nonzero :
    ((collect ⟨none, 0⟩ NewMockStatsProvider 1).1.1.Network.map
      NetworkStats.SendRate) = [102400] ∧ (102400 : ℚ) ≠ 0 := by
  constructor
  · norm_num [collect, NewMockStatsProvider, getCPUStats, getMemoryStats,
      getDiskStats, getNetworkStats]
  · norm_num

/-- **C4** (amended) — for a freshly constructed collector, the first
successful network collection reports exactly the rates the source reported;
in particular, when the source reports zero rates for all its samples (as
`GetNetworkStats` of the platform providers always does), every interface in
the first snapshot has `SendRate = RecvRate = 0`. -/
theorem first_collect_passthrough_rates (m : MockStatsProvider) (t0 now : ℚ)
    (hz : ∀ s ∈ m.NetStats, s.SendRate = 0 ∧ s.RecvRate = 0) :
    ∀ s ∈ (collect ⟨none, t0⟩ m now).1.1.Network,
      s.SendRate = 0 ∧ s.RecvRate = 0 := by
  cases hn : m.NetError with
  | true => simp [collect, getNetworkStats, hn]
  | false =>
    have hNet : (collect ⟨none, t0⟩ m now).1.1.Network = m.NetStats := by
      simp [collect, getCPUStats, getMemoryStats, getDiskStats,
        getNetworkStats, hn]
    rw [hNet]
    exact hz

/-- Witness for `first_collect_passthrough_rates` on `zeroRateMock`. -/
theorem first_collect_passthrough_rates_witness :
    (⟨"eth0", 5, 5, 0, 0⟩ : NetworkStats).SendRate = 0 ∧
    (⟨"eth0", 5, 5, 0, 0⟩ : NetworkStats).RecvRate = 0 :=
  first_collect_passthrough_rates zeroRateMock 0 1
    (by norm_num [zeroRateMock]) ⟨"eth0", 5, 5, 0, 0⟩
    (by norm_num [collect, zeroRateMock, getCPUStats, getMemoryStats,
      getDiskStats, getNetworkStats])

/-- **C6** — the collector's rate state after one `Collect` cycle: when the
network query succeeds, `prevNet` is overwritten with exactly this cycle's
(rate-annotated) network result and `prevTime` with this cycle's timestamp;
when the network query fails, the state is left completely unchanged. -/
theorem rate_state_update (c : CollectorState) (m : MockStatsProvider)
    (now : ℚ) :
    (m.NetError = false →
      (collect c m now).2.prevNet = some ((collect c m now).1.1.Network) ∧
      (collect c m now).2.prevTime = now) ∧
    (m.NetError = true → (collect c m now).2 = c) := by
  cases hn : m.NetError <;>
    simp [collect, getCPUStats, getMemoryStats, getDiskStats,
      getNetworkStats, hn]

/-- Witness for `rate_state_update`: a successful cycle on `zeroRateMock`
stores the snapshot's network sequence and the cycle timestamp. -/
theorem rate_state_update_witness :
    (collect ⟨none, 0⟩ zeroRateMock 1).2.prevNet
        = some ((collect ⟨none, 0⟩ zeroRateMock 1).1.1.Network) ∧
    (collect ⟨none, 0⟩ zeroRateMock 1).2.prevTime = 1 :=
  (rate_state_update ⟨none, 0⟩ zeroRateMock 1).1 rfl

/-! ## Enumeration hygiene of the Linux source -/

theorem diskScan_not_mem_seen :
    ∀ (rows : List MountRow) (seen : List String) (d : DiskStats),
      d ∈ diskScan rows seen → d.Mountpoint ∉ seen := by
  intro rows
  induction rows with
  | nil =>
    intro seen d hd
    simp [diskScan] at hd
  | cons r rest ih =>
    intro seen d hd
    simp only [diskScan] at hd
    split_ifs at hd with hsp hseen
    · exact ih seen d hd
    · exact ih seen d hd
    · cases hst : r.statfs with
      | none =>
        rw [hst] at hd
        intro contra
        exact ih _ d hd (List.mem_cons_of_mem _ contra)
      | some s =>
        rw [hst] at hd
        rcases List.mem_cons.mp hd with rfl | hd'
        · exact hseen
        · intro contra
          exact ih _ d hd' (List.mem_cons_of_mem _ contra)

theorem diskScan_nodup :
    ∀ (rows : List MountRow) (seen : List String),
      ((diskScan rows seen).map DiskStats.Mountpoint).Nodup := by
  intro rows
  induction rows with
  | nil =>
    intro seen
    simp [diskScan]
  | cons r rest ih =>
    intro seen
    simp only [diskScan]
    split_ifs with hsp hseen
    · exact ih seen
    · exact ih seen
    · cases hst : r.statfs with
      | none => exact ih _
      | some s =>
        simp only [List.map_cons, List.nodup_cons]
        refine ⟨?_, ih _⟩
        intro hmem
        rcases List.mem_map.mp hmem with ⟨d, hd, hdm⟩
        exact diskScan_not_mem_seen rest (r.mountpoint :: seen) d hd
          (hdm ▸ List.mem_cons_self _ _)

theorem diskScan_provenance :
    ∀ (rows : List MountRow) (seen : List String) (d : DiskStats),
      d ∈ diskScan rows seen →
      ∃ r ∈ rows, r.mountpoint = d.Mountpoint ∧ isSpecialFs r.fstype = false := by
  intro rows
  induction rows with
  | nil =>
    intro seen d hd
    simp [diskScan] at hd
  | cons r rest ih =>
    intro seen d hd
    simp only [diskScan] at hd
    split_ifs at hd with hsp hseen
    · rcases ih seen d hd with ⟨r', hr', h⟩
      exact ⟨r', List.mem_cons_of_mem _ hr', h⟩
    · rcases ih seen d hd with ⟨r', hr', h⟩
      exact ⟨r', List.mem_cons_of_mem _ hr', h⟩
    · cases hst : r.statfs with
      | none =>
        rw [hst] at hd
        rcases ih _ d hd with ⟨r', hr', h⟩
        exact ⟨r', List.mem_cons_of_mem _ hr', h⟩
      | some s =>
        rw [hst] at hd
        rcases List.mem_cons.mp hd with rfl | hd'
        · exact ⟨r, List.mem_cons_self _ _, rfl, by simpa using hsp⟩
        · rcases ih _ d hd' with ⟨r', hr', h⟩
          exact ⟨r', List.mem_cons_of_mem _ hr', h⟩

theorem linuxNet_no_lo :
    ∀ (rows : List NetRow) (s : NetworkStats),
      s ∈ linuxGetNetworkStats rows → s.Interface ≠ "lo" := by
  intro rows
  induction rows with
  | nil =>
    intro s hs
    simp [linuxGetNetworkStats] at hs
  | cons r rest ih =>
    intro s hs
    simp only [linuxGetNetworkStats] at hs
    split_ifs at hs with hlo
    · exact ih s hs
    · rcases List.mem_cons.mp hs with rfl | hs'
      · exact hlo
      · exact ih s hs'

theorem linuxNet_ifaces_sublist :
    ∀ rows : List NetRow,
      List.Sublist ((linuxGetNetworkStats rows).map NetworkStats.Interface)
        (rows.map NetRow.iface) := by
  intro rows
  induction rows with
  | nil => simp [linuxGetNetworkStats]
  | cons r rest ih =>
    simp only [linuxGetNetworkStats, List.map_cons]
    split_ifs with hlo
    · exact ih.cons _
    · exact List.Sublist.cons₂ _ ih

/-- **C8** (counterexample) — `GetNetworkStats` performs no deduplication:
an input with two data lines for `eth0` yields two entries with the same
interface name. -/
theorem net_duplicate_interfaces :
    ¬ ((linuxGetNetworkStats [⟨"eth0", 1, 2⟩, ⟨"eth0", 3, 4⟩]).map
      NetworkStats.Interface).Nodup := by
  decide

/-- **C8** (amended) — enumeration hygiene as the code provides it: one
`GetDiskStats` query yields pairwise-distinct mountpoints, each coming from
a mount row that is not a special/pseudo filesystem; one `GetNetworkStats`
query excludes the loopback interface, and its interface names are pairwise
distinct whenever the input lists each interface at most once (the code
itself performs no network dedup). -/
theorem enumeration_hygiene (mrows : List MountRow) (nrows : List NetRow) :
    ((linuxGetDiskStats mrows).map DiskStats.Mountpoint).Nodup ∧
    (∀ d ∈ linuxGetDiskStats mrows,
      ∃ r ∈ mrows, r.mountpoint = d.Mountpoint ∧ isSpecialFs r.fstype = false) ∧
    (∀ s ∈ linuxGetNetworkStats nrows, s.Interface ≠ "lo") ∧
    ((nrows.map NetRow.iface).Nodup →
      ((linuxGetNetworkStats nrows).map NetworkStats.Interface).Nodup) := by
  refine ⟨diskScan_nodup mrows [], ?_, linuxNet_no_lo nrows, ?_⟩
  · intro d hd
    exact diskScan_provenance mrows [] d hd
  · intro hnd
    exact List.Nodup.sublist (linuxNet_ifaces_sublist nrows) hnd

/-- Witness for `enumeration_hygiene` on a concrete mount table (with a
duplicate `/` row and a `proc` row) and interface table (with a `lo` row). -/
theorem enumeration_hygiene_witness :
    ((linuxGetDiskStats
        [⟨"/", "ext4", some ⟨100, 20, 10, 4096⟩⟩, ⟨"/proc", "proc", none⟩,
         ⟨"/", "ext4", some ⟨1, 1, 1, 1⟩⟩]).map DiskStats.Mountpoint).Nodup ∧
    ((linuxGetNetworkStats [⟨"eth0", 1, 2⟩, ⟨"lo", 3, 4⟩, ⟨"wlan0", 5, 6⟩]).map
      NetworkStats.Interface).Nodup := by
  have h := enumeration_hygiene
    [⟨"/", "ext4", some ⟨100, 20, 10, 4096⟩⟩, ⟨"/proc", "proc", none⟩,
     ⟨"/", "ext4", some ⟨1, 1, 1, 1⟩⟩]
    [⟨"eth0", 1, 2⟩, ⟨"lo", 3, 4⟩, ⟨"wlan0", 5, 6⟩]
  exact ⟨h.1, h.2.2.2 (by decide)⟩

end SysMon
